import Mathlib

/-!
Verification of the top-level entry points of quickjs-emscripten
(src/ts/index.ts): the process-wide singleton accessors getQuickJS and
getQuickJSSync, the module factories newQuickJSWASMModule and
newQuickJSAsyncWASMModule, the isolated helpers newAsyncRuntime and
newAsyncContext, and the deadline interrupt handler
shouldInterruptAfterDeadline.

The stateful singleton logic is embedded as a small-step machine over an
explicit state (the module-level mutable bindings `singleton` and
`singletonPromise`), driven by an event list; promise settlement is an
explicit event.  Module instantiation is modelled by a world passing a
fresh-id counter, so distinct instantiations yield distinguishable
instances.  Times are integers (milliseconds since the epoch, the value
of Date.now()).
-/

namespace QuickJSEmscripten

/-- An instantiated emscripten WebAssembly module.  `id` identifies the
instantiation (each load produces a fresh one); `type` is the variant tag
that index.ts assigns right after loading (`wasmModule.type = "sync"` or
`"async"`). -/
structure WasmModule where
  id : Nat
  type : String
  deriving DecidableEq, Repr

/-- The FFI wrapper constructed by newQuickJSWASMModule (`new
QuickJSFFI(wasmModule)`); it closes over the wasm module it was built
from. -/
structure QuickJSFFI where
  wasmModule : WasmModule
  deriving DecidableEq, Repr

/-- The synchronous-engine module instance constructed by
newQuickJSWASMModule (`new QuickJSWASMModule(wasmModule, ffi)`). -/
structure QuickJSWASMModule where
  wasmModule : WasmModule
  ffi : QuickJSFFI
  deriving DecidableEq, Repr

/-- The asyncify FFI wrapper constructed by newQuickJSAsyncWASMModule
(`new QuickJSAsyncFFI(wasmModule)`). -/
structure QuickJSAsyncFFI where
  wasmModule : WasmModule
  deriving DecidableEq, Repr

/-- The asyncify-transformed module instance constructed by
newQuickJSAsyncWASMModule (`new QuickJSAsyncWASMModule(wasmModule,
ffi)`). -/
structure QuickJSAsyncWASMModule where
  wasmModule : WasmModule
  ffi : QuickJSAsyncFFI
  deriving DecidableEq, Repr

/-- Allocation state of the process: the next fresh WebAssembly module
instantiation id.  Every module loader call consumes one id. -/
structure World where
  nextWasmId : Nat
  deriving DecidableEq, Repr

/-- Embeds newQuickJSWASMModule (index.ts lines 80-90): load a fresh wasm
module, tag it `"sync"`, wrap it in a QuickJSFFI and a QuickJSWASMModule. -/
def newQuickJSWASMModule (w : World) : QuickJSWASMModule × World :=
  let wasmModule : WasmModule := { id := w.nextWasmId, type := "sync" }
  let ffi : QuickJSFFI := { wasmModule := wasmModule }
  ({ wasmModule := wasmModule, ffi := ffi }, { nextWasmId := w.nextWasmId + 1 })

/-- Embeds newQuickJSAsyncWASMModule (index.ts lines 105-116): load a
fresh wasm module, tag it `"async"`, wrap it in a QuickJSAsyncFFI and a
QuickJSAsyncWASMModule. -/
def newQuickJSAsyncWASMModule (w : World) : QuickJSAsyncWASMModule × World :=
  let wasmModule : WasmModule := { id := w.nextWasmId, type := "async" }
  let ffi : QuickJSAsyncFFI := { wasmModule := wasmModule }
  ({ wasmModule := wasmModule, ffi := ffi }, { nextWasmId := w.nextWasmId + 1 })

/-- A runtime of the asyncified variant.  Modelled from the spec: the
class QuickJSAsyncRuntime (runtime-asyncify.ts, not part of the visible
slice) lives inside the module instance that created it ("each Runtime
must live in its own isolated engine module instance"). -/
structure QuickJSAsyncRuntime where
  owningModule : QuickJSAsyncWASMModule
  deriving DecidableEq, Repr

/-- A context of the asyncified variant.  Modelled from the spec: a
QuickJSAsyncContext (context-asyncify.ts, not part of the visible slice)
has an associated runtime inside the module instance that created it. -/
structure QuickJSAsyncContext where
  runtime : QuickJSAsyncRuntime
  deriving DecidableEq, Repr

/-- Modelled from the spec: QuickJSAsyncWASMModule.newRuntime
(module-asyncify.ts, not part of the visible slice) creates a runtime
living in this module instance. -/
def QuickJSAsyncWASMModule.newRuntime (m : QuickJSAsyncWASMModule) :
    QuickJSAsyncRuntime :=
  { owningModule := m }

/-- Modelled from the spec: QuickJSAsyncWASMModule.newContext
(module-asyncify.ts, not part of the visible slice) creates a context,
with an associated runtime, living in this module instance. -/
def QuickJSAsyncWASMModule.newContext (m : QuickJSAsyncWASMModule) :
    QuickJSAsyncContext :=
  { runtime := { owningModule := m } }

/-- Embeds newAsyncRuntime (index.ts lines 129-132): instantiate a fresh
asyncified module, then create the runtime inside it. -/
def newAsyncRuntime (w : World) : QuickJSAsyncRuntime × World :=
  let p := newQuickJSAsyncWASMModule w
  (p.1.newRuntime, p.2)

/-- Embeds newAsyncContext (index.ts lines 146-149): instantiate a fresh
asyncified module, then create the context inside it. -/
def newAsyncContext (w : World) : QuickJSAsyncContext × World :=
  let p := newQuickJSAsyncWASMModule w
  (p.1.newContext, p.2)

/-- The settlement state of the promise stored in `singletonPromise`: the
promise returned by `newQuickJSWASMModule().then(...)` in getQuickJS.  It
fulfills with the constructed instance after the then-callback has stored
it into `singleton`; it rejects with the construction failure when
newQuickJSWASMModule rejects (the then-callback is skipped). -/
inductive PromiseState where
  | pending
  | fulfilled (m : QuickJSWASMModule)
  | rejected (e : String)
  deriving DecidableEq, Repr

/-- The module-level mutable state of index.ts (lines 34-35) together
with the allocation world: `singleton` and `singletonPromise` both start
out undefined. -/
structure IndexState where
  singleton : Option QuickJSWASMModule
  singletonPromise : Option PromiseState
  world : World
  constructorCalls : Nat
  deriving DecidableEq, Repr

/-- The initial module state: `singleton = undefined`,
`singletonPromise = undefined`, no instantiation performed yet. -/
def initialIndexState : IndexState :=
  { singleton := none
    singletonPromise := none
    world := { nextWasmId := 0 }
    constructorCalls := 0 }

/-- The events that can touch the module state: a call to getQuickJS (its
synchronous prefix, the `singletonPromise ??= ...` line), and the
settlement (fulfillment or rejection) of the in-flight construction
started by that line. -/
inductive Event where
  | callGetQuickJS
  | settleOk
  | settleErr (e : String)
  deriving DecidableEq, Repr

/-- Embeds the synchronous prefix of getQuickJS (index.ts lines 52-57):
`singletonPromise ??= newQuickJSWASMModule().then(...)`.  When
`singletonPromise` is already set nothing happens; when it is undefined,
newQuickJSWASMModule() is invoked (counted in `constructorCalls`) and the
derived, still pending, promise is stored. -/
def getQuickJSStart (s : IndexState) : IndexState :=
  match s.singletonPromise with
  | some _ => s
  | none =>
      { s with
        singletonPromise := some PromiseState.pending
        constructorCalls := s.constructorCalls + 1 }

/-- One step of the module-state machine.  `settleOk` is the in-flight
construction fulfilling: the then-callback `(instance) => { singleton =
instance; return instance }` runs, so `singleton` is assigned and the
stored promise fulfills with the same instance.  `settleErr` is the
construction rejecting: the then-callback is skipped and the stored
promise rejects with the same reason.  Settlement events apply only to a
pending stored promise; a settled promise never changes again. -/
def step (s : IndexState) (e : Event) : IndexState :=
  match e with
  | Event.callGetQuickJS => getQuickJSStart s
  | Event.settleOk =>
      match s.singletonPromise with
      | some PromiseState.pending =>
          let p := newQuickJSWASMModule s.world
          { s with
            singleton := some p.1
            singletonPromise := some (PromiseState.fulfilled p.1)
            world := p.2 }
      | _ => s
  | Event.settleErr err =>
      match s.singletonPromise with
      | some PromiseState.pending =>
          { s with singletonPromise := some (PromiseState.rejected err) }
      | _ => s

/-- The module state reached from the initial state by a list of events. -/
def run (evs : List Event) : IndexState :=
  evs.foldl step initialIndexState

/-- The error message thrown by getQuickJSSync before initialization. -/
def notInitializedMessage : String :=
  "QuickJS not initialized. Await getQuickJS() at least once."

/-- Embeds getQuickJSSync (index.ts lines 65-70): throw if `singleton` is
still undefined, otherwise return it. -/
def getQuickJSSync (s : IndexState) : Except String QuickJSWASMModule :=
  match s.singleton with
  | none => Except.error notInitializedMessage
  | some m => Except.ok m

/-- What `await singletonPromise` in getQuickJS produces once the stored
promise has settled: the fulfillment value, or the cached rejection
reason.  `none` while no promise is stored or it is still pending. -/
def getQuickJSResolved (s : IndexState) : Option (Except String QuickJSWASMModule) :=
  match s.singletonPromise with
  | some (PromiseState.fulfilled m) => some (Except.ok m)
  | some (PromiseState.rejected e) => some (Except.error e)
  | _ => none

/-- The coupling invariant of the module state: `singleton` is assigned
exactly when the stored promise has fulfilled, and with the same
instance; newQuickJSWASMModule has been invoked exactly once as soon as a
promise is stored, and never again. -/
def Inv (s : IndexState) : Prop :=
  match s.singletonPromise with
  | none => s.singleton = none ∧ s.constructorCalls = 0
  | some PromiseState.pending => s.singleton = none ∧ s.constructorCalls = 1
  | some (PromiseState.fulfilled m) => s.singleton = some m ∧ s.constructorCalls = 1
  | some (PromiseState.rejected _) => s.singleton = none ∧ s.constructorCalls = 1

theorem inv_initial : Inv initialIndexState := by
  constructor <;> rfl

theorem inv_step (s : IndexState) (e : Event) (h : Inv s) : Inv (step s e) := by
  rcases s with ⟨sg, sp, w, cc⟩
  rcases sp with _ | ps
  · rcases e with _ | _ | err
    · simp only [step, getQuickJSStart, Inv] at h ⊢
      exact ⟨h.1, by omega⟩
    · exact h
    · exact h
  · rcases ps with _ | m | e'
    · rcases e with _ | _ | err
      · exact h
      · simp only [step, Inv] at h ⊢
        exact ⟨trivial, h.2⟩
      · simp only [step, Inv] at h ⊢
        exact h
    · rcases e with _ | _ | err <;> exact h
    · rcases e with _ | _ | err <;> exact h

theorem inv_foldl (evs : List Event) (s : IndexState) (h : Inv s) :
    Inv (List.foldl step s evs) := by
  induction evs generalizing s with
  | nil => exact h
  | cons e evs ih => exact ih (step s e) (inv_step s e h)

theorem inv_run (evs : List Event) : Inv (run evs) :=
  inv_foldl evs initialIndexState inv_initial

/-- A settled stored promise (fulfilled or rejected) is never changed by
any later event. -/
theorem settled_step (s : IndexState) (e : Event) (ps : PromiseState)
    (hps : s.singletonPromise = some ps) (hnp : ps ≠ PromiseState.pending) :
    (step s e).singletonPromise = some ps := by
  rcases s with ⟨sg, sp, w, cc⟩
  simp only at hps
  subst hps
  rcases e with _ | _ | err <;>
    rcases ps with _ | m | e <;>
      simp [step, getQuickJSStart] at hnp ⊢

theorem settled_foldl (evs : List Event) (s : IndexState) (ps : PromiseState)
    (hps : s.singletonPromise = some ps) (hnp : ps ≠ PromiseState.pending) :
    (List.foldl step s evs).singletonPromise = some ps := by
  induction evs generalizing s with
  | nil => exact hps
  | cons e evs ih => exact ih (step s e) (settled_step s e ps hps hnp)

theorem run_append (evs evs' : List Event) :
    run (evs ++ evs') = List.foldl step (run evs) evs' := by
  simp [run, List.foldl_append]

theorem inv_fulfilled (s : IndexState) (hinv : Inv s) (m : QuickJSWASMModule)
    (h : s.singletonPromise = some (PromiseState.fulfilled m)) :
    s.singleton = some m ∧ s.constructorCalls = 1 := by
  simp only [Inv, h] at hinv
  exact hinv

theorem inv_not_fulfilled (s : IndexState) (hinv : Inv s)
    (h : ∀ m, s.singletonPromise ≠ some (PromiseState.fulfilled m)) :
    s.singleton = none := by
  rcases hsp : s.singletonPromise with _ | ps
  · simp only [Inv, hsp] at hinv
    exact hinv.1
  · rcases ps with _ | m | e
    · simp only [Inv, hsp] at hinv
      exact hinv.1
    · exact absurd hsp (h m)
    · simp only [Inv, hsp] at hinv
      exact hinv.1

theorem inv_rejected (s : IndexState) (hinv : Inv s) (e : String)
    (h : s.singletonPromise = some (PromiseState.rejected e)) :
    s.singleton = none ∧ s.constructorCalls = 1 := by
  simp only [Inv, h] at hinv
  exact hinv

/-- The module instance the singleton machinery constructs in the very
first run, used as concrete input by several witnesses. -/
def syncModule0 : QuickJSWASMModule :=
  { wasmModule := { id := 0, type := "sync" }
    ffi := { wasmModule := { id := 0, type := "sync" } } }

/-- Claim C1: for every call to getQuickJSSync (in any reachable module
state): if the construction started by getQuickJS has never fulfilled,
the call throws the initialization-order error; otherwise it returns the
shared instance the promise fulfilled with. -/
theorem getQuickJSSync_initialization_order (evs : List Event) :
    ((∀ m, (run evs).singletonPromise ≠ some (PromiseState.fulfilled m)) →
      getQuickJSSync (run evs) = Except.error notInitializedMessage)
    ∧ ∀ m, (run evs).singletonPromise = some (PromiseState.fulfilled m) →
      getQuickJSSync (run evs) = Except.ok m := by
  constructor
  · intro h
    have hnone := inv_not_fulfilled (run evs) (inv_run evs) h
    simp [getQuickJSSync, hnone]
  · intro m hm
    have hsome := (inv_fulfilled (run evs) (inv_run evs) m hm).1
    simp [getQuickJSSync, hsome]

/-- Witness for C1: before any event the accessor throws; after the first
getQuickJS call fulfills, it returns the constructed instance. -/
theorem getQuickJSSync_initialization_order_witness :
    getQuickJSSync (run []) = Except.error notInitializedMessage ∧
      getQuickJSSync (run [Event.callGetQuickJS, Event.settleOk]) =
        Except.ok syncModule0 := by
  constructor
  · exact (getQuickJSSync_initialization_order []).1
      (by intro m hm; simp [run, initialIndexState] at hm)
  · exact (getQuickJSSync_initialization_order
      [Event.callGetQuickJS, Event.settleOk]).2 syncModule0 rfl

/-- Claim C2: newQuickJSWASMModule is invoked at most once over any
sequence of getQuickJS calls, and once the construction has fulfilled
with an instance, every later state still holds exactly that instance
(the promise, the stored singleton, and the value getQuickJS resolves to
never change, and no further construction happens). -/
theorem getQuickJS_singleton_cached (evs evs' : List Event) :
    (run evs).constructorCalls ≤ 1
    ∧ ∀ m, (run evs).singletonPromise = some (PromiseState.fulfilled m) →
        (run (evs ++ evs')).singletonPromise = some (PromiseState.fulfilled m)
        ∧ (run (evs ++ evs')).singleton = some m
        ∧ getQuickJSResolved (run (evs ++ evs')) = some (Except.ok m)
        ∧ (run (evs ++ evs')).constructorCalls = 1 := by
  constructor
  · have hinv := inv_run evs
    rcases hsp : (run evs).singletonPromise with _ | ps
    · simp only [Inv, hsp] at hinv
      omega
    · rcases ps with _ | m | e <;>
        · simp only [Inv, hsp] at hinv
          omega
  · intro m hm
    have hstay : (run (evs ++ evs')).singletonPromise =
        some (PromiseState.fulfilled m) := by
      rw [run_append]
      exact settled_foldl evs' (run evs) (PromiseState.fulfilled m) hm (by simp)
    have hinv := inv_fulfilled (run (evs ++ evs')) (inv_run (evs ++ evs')) m hstay
    exact ⟨hstay, hinv.1, by simp [getQuickJSResolved, hstay], hinv.2⟩

/-- Witness for C2: after the first call fulfills, a later getQuickJS
call leaves the cached instance in place and constructs nothing new. -/
theorem getQuickJS_singleton_cached_witness :
    (run [Event.callGetQuickJS, Event.settleOk]).constructorCalls ≤ 1 ∧
      (run ([Event.callGetQuickJS, Event.settleOk] ++ [Event.callGetQuickJS])).singletonPromise =
          some (PromiseState.fulfilled syncModule0) ∧
        (run ([Event.callGetQuickJS, Event.settleOk] ++ [Event.callGetQuickJS])).singleton =
          some syncModule0 ∧
        getQuickJSResolved (run ([Event.callGetQuickJS, Event.settleOk] ++ [Event.callGetQuickJS])) =
          some (Except.ok syncModule0) ∧
        (run ([Event.callGetQuickJS, Event.settleOk] ++ [Event.callGetQuickJS])).constructorCalls = 1 :=
  ⟨(getQuickJS_singleton_cached [Event.callGetQuickJS, Event.settleOk]
      [Event.callGetQuickJS]).1,
    (getQuickJS_singleton_cached [Event.callGetQuickJS, Event.settleOk]
      [Event.callGetQuickJS]).2 syncModule0 rfl⟩

/-- Claim C5: once getQuickJS has resolved with a module instance, every
subsequent getQuickJSSync call returns that very instance. -/
theorem getQuickJSSync_agrees_with_getQuickJS (evs evs' : List Event)
    (m : QuickJSWASMModule)
    (h : getQuickJSResolved (run evs) = some (Except.ok m)) :
    getQuickJSSync (run (evs ++ evs')) = Except.ok m := by
  have hm : (run evs).singletonPromise = some (PromiseState.fulfilled m) := by
    rcases hsp : (run evs).singletonPromise with _ | ps
    · simp [getQuickJSResolved, hsp] at h
    · rcases ps with _ | m' | e <;> simp [getQuickJSResolved, hsp] at h
      simp [h]
  have hstay : (run (evs ++ evs')).singletonPromise =
      some (PromiseState.fulfilled m) := by
    rw [run_append]
    exact settled_foldl evs' (run evs) (PromiseState.fulfilled m) hm (by simp)
  have hsome := (inv_fulfilled (run (evs ++ evs')) (inv_run (evs ++ evs')) m hstay).1
  simp [getQuickJSSync, hsome]

/-- Witness for C5: after the first call fulfills, a synchronous access
following one more call returns the same instance. -/
theorem getQuickJSSync_agrees_with_getQuickJS_witness :
    getQuickJSSync (run ([Event.callGetQuickJS, Event.settleOk] ++ [Event.callGetQuickJS])) =
      Except.ok syncModule0 :=
  getQuickJSSync_agrees_with_getQuickJS [Event.callGetQuickJS, Event.settleOk]
    [Event.callGetQuickJS] syncModule0 rfl

/-- Claim C10: if the first construction rejects, the failure is cached
permanently: in every later state the singleton is still unset,
getQuickJSSync still throws the not-initialized error, every further
getQuickJS call resolves to the same cached rejection, and
newQuickJSWASMModule is never invoked again. -/
theorem getQuickJS_failure_cached (evs evs' : List Event) (e : String)
    (h : (run evs).singletonPromise = some (PromiseState.rejected e)) :
    (run (evs ++ evs')).singleton = none
    ∧ getQuickJSSync (run (evs ++ evs')) = Except.error notInitializedMessage
    ∧ getQuickJSResolved (run (evs ++ evs')) = some (Except.error e)
    ∧ (run (evs ++ evs')).constructorCalls = 1 := by
  have hstay : (run (evs ++ evs')).singletonPromise =
      some (PromiseState.rejected e) := by
    rw [run_append]
    exact settled_foldl evs' (run evs) (PromiseState.rejected e) h (by simp)
  have hinv := inv_rejected (run (evs ++ evs')) (inv_run (evs ++ evs')) e hstay
  exact ⟨hinv.1, by simp [getQuickJSSync, hinv.1],
    by simp [getQuickJSResolved, hstay], hinv.2⟩

/-- Witness for C10: a rejected first construction stays cached across a
later call, and even a stray fulfillment event changes nothing. -/
theorem getQuickJS_failure_cached_witness :
    (run ([Event.callGetQuickJS, Event.settleErr "oops"] ++
        [Event.callGetQuickJS, Event.settleOk])).singleton = none
    ∧ getQuickJSSync (run ([Event.callGetQuickJS, Event.settleErr "oops"] ++
        [Event.callGetQuickJS, Event.settleOk])) = Except.error notInitializedMessage
    ∧ getQuickJSResolved (run ([Event.callGetQuickJS, Event.settleErr "oops"] ++
        [Event.callGetQuickJS, Event.settleOk])) = some (Except.error "oops")
    ∧ (run ([Event.callGetQuickJS, Event.settleErr "oops"] ++
        [Event.callGetQuickJS, Event.settleOk])).constructorCalls = 1 :=
  getQuickJS_failure_cached [Event.callGetQuickJS, Event.settleErr "oops"]
    [Event.callGetQuickJS, Event.settleOk] "oops" rfl

/-- Claim C6: the two factory entry points tag their instances as
claimed: newQuickJSWASMModule yields the plain-execution variant (the
wasm module it instantiates is tagged "sync" and wrapped in a
QuickJSWASMModule), newQuickJSAsyncWASMModule yields the
suspension-capable variant (tagged "async", wrapped in a
QuickJSAsyncWASMModule). -/
theorem module_factory_type_tags (w : World) :
    (newQuickJSWASMModule w).1.wasmModule.type = "sync"
    ∧ (newQuickJSWASMModule w).1.ffi.wasmModule = (newQuickJSWASMModule w).1.wasmModule
    ∧ (newQuickJSAsyncWASMModule w).1.wasmModule.type = "async"
    ∧ (newQuickJSAsyncWASMModule w).1.ffi.wasmModule = (newQuickJSAsyncWASMModule w).1.wasmModule := by
  refine ⟨rfl, rfl, rfl, rfl⟩

/-- Claim C7: newAsyncRuntime and newAsyncContext each instantiate a
fresh asyncified module of their own: the module is tagged "async" and
carries the world's fresh id, the world advances, two successive calls
never share a module instance, and the produced module differs from any
previously instantiated module (in particular the process-wide
singleton, whose id predates the call). -/
theorem newAsyncRuntime_newAsyncContext_fresh_modules (w : World) :
    ((newAsyncRuntime w).1.owningModule.wasmModule.type = "async"
      ∧ (newAsyncRuntime w).1.owningModule.wasmModule.id = w.nextWasmId
      ∧ (newAsyncRuntime w).2.nextWasmId = w.nextWasmId + 1)
    ∧ ((newAsyncContext w).1.runtime.owningModule.wasmModule.type = "async"
      ∧ (newAsyncContext w).1.runtime.owningModule.wasmModule.id = w.nextWasmId
      ∧ (newAsyncContext w).2.nextWasmId = w.nextWasmId + 1)
    ∧ (newAsyncRuntime ((newAsyncRuntime w).2)).1.owningModule ≠
        (newAsyncRuntime w).1.owningModule
    ∧ (newAsyncContext ((newAsyncRuntime w).2)).1.runtime.owningModule ≠
        (newAsyncRuntime w).1.owningModule
    ∧ ∀ s : QuickJSWASMModule, s.wasmModule.id < w.nextWasmId →
        (newAsyncRuntime w).1.owningModule.wasmModule.id ≠ s.wasmModule.id := by
  refine ⟨⟨rfl, rfl, rfl⟩, ⟨rfl, rfl, rfl⟩, ?_, ?_, ?_⟩
  · intro hcontra
    simp only [newAsyncRuntime, newQuickJSAsyncWASMModule,
      QuickJSAsyncWASMModule.newRuntime, QuickJSAsyncWASMModule.mk.injEq,
      WasmModule.mk.injEq] at hcontra
    omega
  · intro hcontra
    simp only [newAsyncRuntime, newAsyncContext, newQuickJSAsyncWASMModule,
      QuickJSAsyncWASMModule.newRuntime, QuickJSAsyncWASMModule.newContext,
      QuickJSAsyncWASMModule.mk.injEq, WasmModule.mk.injEq] at hcontra
    omega
  · intro s hs hcontra
    simp only [newAsyncRuntime, newQuickJSAsyncWASMModule,
      QuickJSAsyncWASMModule.newRuntime] at hcontra
    omega

/-- Witness for C7 at the world reached after the singleton was built:
the fresh asyncified module is distinct from the singleton instance. -/
theorem newAsyncRuntime_newAsyncContext_fresh_modules_witness :
    (newAsyncRuntime { nextWasmId := 1 }).1.owningModule.wasmModule.type = "async"
    ∧ (newAsyncRuntime { nextWasmId := 1 }).1.owningModule.wasmModule.id ≠
        syncModule0.wasmModule.id :=
  ⟨(newAsyncRuntime_newAsyncContext_fresh_modules { nextWasmId := 1 }).1.1,
    (newAsyncRuntime_newAsyncContext_fresh_modules { nextWasmId := 1 }).2.2.2.2
      syncModule0 (by decide)⟩

/-- A JavaScript Date value, represented by the only observation the code
makes of it: getTime(), milliseconds since the epoch. -/
structure JsDate where
  getTime : Int
  deriving DecidableEq, Repr

/-- The `Date | number` argument of shouldInterruptAfterDeadline. -/
inductive DeadlineArg where
  | num (n : Int)
  | date (d : JsDate)
  deriving DecidableEq, Repr

/-- The `deadlineAsNumber` computed in shouldInterruptAfterDeadline
(index.ts line 158): a number is used as-is, a Date contributes
getTime(). -/
def deadlineAsNumber : DeadlineArg → Int
  | DeadlineArg.num n => n
  | DeadlineArg.date d => d.getTime

/-- Embeds shouldInterruptAfterDeadline (index.ts lines 157-163).  The
returned closure is a function of the current time (the value Date.now()
would produce at the poll): it returns `Date.now() > deadlineAsNumber`. -/
def shouldInterruptAfterDeadline (deadline : DeadlineArg) : Int → Bool :=
  fun now => decide (now > deadlineAsNumber deadline)

/-- Claim C3: for every deadline argument (number or Date) the handler
built by shouldInterruptAfterDeadline, polled at any current time,
returns exactly the boolean result of comparing the current time against
the deadline: true iff the current time is strictly past the deadline. -/
theorem shouldInterruptAfterDeadline_compares_now
    (deadline : DeadlineArg) (now : Int) :
    shouldInterruptAfterDeadline deadline now = true ↔
      deadlineAsNumber deadline < now := by
  simp [shouldInterruptAfterDeadline]

/-- Claim C8: the comparison is strict: polling at a current time exactly
equal to the deadline returns false, for both representations of the
deadline. -/
theorem shouldInterruptAfterDeadline_strict_at_deadline (t : Int) :
    shouldInterruptAfterDeadline (DeadlineArg.num t) t = false ∧
      shouldInterruptAfterDeadline (DeadlineArg.date { getTime := t }) t = false := by
  constructor <;> simp [shouldInterruptAfterDeadline, deadlineAsNumber]

/-- Claim C9: the handler is insensitive to the representation of the
deadline: the handler built from a Date behaves at every poll time
exactly like the handler built from that Date's getTime() number. -/
theorem shouldInterruptAfterDeadline_date_number_agree
    (d : JsDate) (now : Int) :
    shouldInterruptAfterDeadline (DeadlineArg.date d) now =
      shouldInterruptAfterDeadline (DeadlineArg.num d.getTime) now := rfl

/-- Claim C4: for a deadline strictly earlier than the current time, the
handler returns true on every poll from then on: every poll taken at any
time from the current time onwards (time never decreases) requests
interruption, so the engine's very first poll during an infinite loop
aborts the evaluation instead of letting it hang. -/
theorem shouldInterruptAfterDeadline_past_deadline_always_true
    (deadline : DeadlineArg) (now : Int)
    (hpast : deadlineAsNumber deadline < now)
    (poll : Nat → Int) (hmono : ∀ n, now ≤ poll n) :
    ∀ n, shouldInterruptAfterDeadline deadline (poll n) = true := by
  intro n
  simp only [shouldInterruptAfterDeadline, decide_eq_true_eq]
  exact lt_of_lt_of_le hpast (hmono n)

/-- Witness for C4 at a concrete past deadline and poll schedule. -/
theorem shouldInterruptAfterDeadline_past_deadline_always_true_witness :
    shouldInterruptAfterDeadline (DeadlineArg.num 100) ((fun n => 101 + (n : Int)) 0) = true ∧
      shouldInterruptAfterDeadline (DeadlineArg.num 100) ((fun n => 101 + (n : Int)) 5) = true := by
  have h := shouldInterruptAfterDeadline_past_deadline_always_true
    (DeadlineArg.num 100) 101 (by decide) (fun n => 101 + (n : Int))
    (by intro n; show (101 : Int) ≤ 101 + (n : Int); omega)
  exact ⟨h 0, h 5⟩

end QuickJSEmscripten
